import Mathlib

/-!
Shallow embedding of the assembly-endgame Hangman application: the React
client session state and its transitions from `App.jsx`, the word
extraction of `getNewWord`, and the Express word proxy from
`backend/index.js`.  Words and guesses are modelled as lists of
characters, JavaScript string membership as `List.contains`, and the
results of asynchronous fetches as explicit inputs.
-/

namespace AssemblyEndgame

/-- Session state of the game client, mirroring the `useState` hooks of
the `App` component: `currentWord` (initialised to a single-space
placeholder before a word is fetched), `guessedLetters`, `winGame` and
`wrongAttemps` (spelling as in the source). -/
structure GameState where
  currentWord : List Char
  guessedLetters : List Char
  winGame : Bool
  wrongAttemps : Nat

deriving instance DecidableEq for GameState

/-- Initial client state on mount: `useState(" ")` for the word, no
guesses, no win, no wrong attempts.  The word fetch has not completed. -/
def initialState : GameState :=
  { currentWord := [' '], guessedLetters := [], winGame := false, wrongAttemps := 0 }

/-- Derived flag `const gameOver = winGame || wrongAttemps > 7`. -/
def gameOver (s : GameState) : Bool :=
  s.winGame || s.wrongAttemps > 7

/-- Win test of the `useEffect` on `guessedLetters`:
`currentWord.split("").every(letter => guessedLetters.includes(letter))`. -/
def hasWon (word guessed : List Char) : Bool :=
  word.all (fun c => guessed.contains c)

/-- Effect body `if (hasWon) setWinGame(true)`: sets the win flag when
every letter of the current word has been guessed and leaves it unchanged
otherwise (the effect never clears the flag). -/
def winCheckEffect (s : GameState) : GameState :=
  if hasWon s.currentWord s.guessedLetters then { s with winGame := true } else s

/-- Click handler `checkGuessedLetter`: if the letter has not been guessed
yet it is appended to `guessedLetters`, and `wrongAttemps` is incremented
when the letter does not occur in `currentWord`. -/
def checkGuessedLetter (s : GameState) (letter : Char) : GameState :=
  if s.guessedLetters.contains letter then s
  else
    { s with
      guessedLetters := s.guessedLetters ++ [letter],
      wrongAttemps :=
        if s.currentWord.contains letter then s.wrongAttemps
        else s.wrongAttemps + 1 }

/-- One guess event.  Keyboard buttons carry `disabled={gameOver}`, so a
click reaches `checkGuessedLetter` only while the game is not over; a
click on an already guessed letter performs no state update and hence does
not re-trigger the `guessedLetters` effect; otherwise the update runs and
the win-check effect fires on the updated state. -/
def guess (s : GameState) (letter : Char) : GameState :=
  if gameOver s then s
  else if s.guessedLetters.contains letter then s
  else winCheckEffect (checkGuessedLetter s letter)

/-- State of a session immediately after a fetched word has been stored by
`setCurrentWord`, with no guesses made: every other component still holds
its initial value. -/
def initSession (word : List Char) : GameState :=
  { currentWord := word, guessedLetters := [], winGame := false, wrongAttemps := 0 }

/-- Folding a sequence of guess events over a state. -/
def playGuesses (s : GameState) (letters : List Char) : GameState :=
  letters.foldl guess s

/-- Word display: `null` while `currentWord` is still the placeholder,
otherwise one box per letter, showing the letter (uppercased) only when it
has been guessed. -/
def displayedWord (s : GameState) : Option (List (Option Char)) :=
  if s.currentWord ≠ [' '] then
    some (s.currentWord.map (fun c =>
      if s.guessedLetters.contains c then some c.toUpper else none))
  else none

/-- The on-screen keyboard alphabet `"qwertyuiopasdfghjklzxcvbnm"`. -/
def alphabet : List Char :=
  ['q','w','e','r','t','y','u','i','o','p','a','s','d','f','g','h','j','k','l',
   'z','x','c','v','b','n','m']

/-- Disabled attribute of every keyboard button: `disabled={gameOver}`. -/
def keyboardButtonDisabled (s : GameState) : Bool :=
  gameOver s

/-- `resetGame`: fetches a fresh word and zeroes the guess state
(`setGuessedLetters([])`, `setWinGame(false)`, `setWrongAttemps(0)`). -/
def resetGame (s : GameState) (freshWord : List Char) : GameState :=
  { s with
    currentWord := freshWord,
    guessedLetters := [],
    winGame := false,
    wrongAttemps := 0 }

/-! ### Word extraction (`getNewWord`) -/

/-- Combining acute accent U+0301. -/
def combiningAcute : Char := Char.ofNat 0x0301

/-- Combining tilde U+0303. -/
def combiningTilde : Char := Char.ofNat 0x0303

/-- Combining diaeresis U+0308. -/
def combiningDiaeresis : Char := Char.ofNat 0x0308

/-- JavaScript `String.prototype.toLowerCase`, restricted to the Latin
letters produced by the two upstream word lists: ASCII capitals and the
precomposed accented capitals used by Spanish words map to their lowercase
forms, every other character is unchanged. -/
def jsToLowerChar (c : Char) : Char :=
  if 65 ≤ c.toNat ∧ c.toNat ≤ 90 then Char.ofNat (c.toNat + 32)
  else if c = 'Á' then 'á'
  else if c = 'É' then 'é'
  else if c = 'Í' then 'í'
  else if c = 'Ó' then 'ó'
  else if c = 'Ú' then 'ú'
  else if c = 'Ü' then 'ü'
  else if c = 'Ñ' then 'ñ'
  else c

/-- Canonical decomposition (`normalize("NFD")`) of one character,
restricted to the precomposed Latin letters of the Spanish word list: an
accented letter splits into its base letter followed by a combining mark,
every other character decomposes to itself. -/
def nfdChar (c : Char) : List Char :=
  if c = 'á' then ['a', combiningAcute]
  else if c = 'é' then ['e', combiningAcute]
  else if c = 'í' then ['i', combiningAcute]
  else if c = 'ó' then ['o', combiningAcute]
  else if c = 'ú' then ['u', combiningAcute]
  else if c = 'ü' then ['u', combiningDiaeresis]
  else if c = 'ñ' then ['n', combiningTilde]
  else if c = 'Á' then ['A', combiningAcute]
  else if c = 'É' then ['E', combiningAcute]
  else if c = 'Í' then ['I', combiningAcute]
  else if c = 'Ó' then ['O', combiningAcute]
  else if c = 'Ú' then ['U', combiningAcute]
  else if c = 'Ü' then ['U', combiningDiaeresis]
  else if c = 'Ñ' then ['N', combiningTilde]
  else [c]

/-- `normalize("NFD")` over a whole word. -/
def nfdString (w : List Char) : List Char :=
  w.flatMap nfdChar

/-- Test for the combining diacritical marks block U+0300 to U+036F that
`replace(/[̀-ͯ]/g, "")` removes. -/
def isCombiningMark (c : Char) : Bool :=
  decide (0x0300 ≤ c.toNat ∧ c.toNat ≤ 0x036F)

/-- `replace(/[̀-ͯ]/g, "")`. -/
def stripCombiningMarks (w : List Char) : List Char :=
  w.filter (fun c => !isCombiningMark c)

/-- `toLowerCase()` over a whole word. -/
def toLowerWord (w : List Char) : List Char :=
  w.map jsToLowerChar

/-- Spanish word post-processing:
`.toLowerCase().normalize("NFD").replace(/[̀-ͯ]/g, "")`. -/
def normalizeSpanishWord (w : List Char) : List Char :=
  stripCombiningMarks (nfdString (toLowerWord w))

/-- Parsed JSON body returned by the proxy, in the two shapes the client
reads: an English body carries a `word` array of strings, a Spanish body
carries a `results` array of records of which only the `Palabra` string is
read. -/
inductive ApiData where
  | english (word : List (List Char))
  | spanish (results : List (List Char))

/-- English extraction `data.word[0].toLowerCase()`; `none` models the
thrown `TypeError` when the array is empty. -/
def extractEnglishWord (wordArr : List (List Char)) : Option (List Char) :=
  wordArr.head?.map toLowerWord

/-- Spanish extraction
`spanishWords[Math.floor(Math.random() * spanishWords.length)].Palabra`
followed by the lowercase/NFD/strip pipeline; the random draw is modelled
by the explicit index `randomIndex`, and `none` models the thrown
`TypeError` when the index is out of range (empty `results`). -/
def extractSpanishWord (results : List (List Char)) (randomIndex : Nat) : Option (List Char) :=
  (results.get? randomIndex).map normalizeSpanishWord

/-- Word extraction of `getNewWord`: branches on the selected language and
the response shape; a shape mismatch throws (modelled as `none`); with a
language other than `"en"`/`"es"` the local variable keeps its initial
value `""`. -/
def getNewWord (language : String) (data : ApiData) (randomIndex : Nat) : Option (List Char) :=
  if language = "en" then
    match data with
    | ApiData.english wordArr => extractEnglishWord wordArr
    | ApiData.spanish _ => none
  else if language = "es" then
    match data with
    | ApiData.spanish results => extractSpanishWord results randomIndex
    | ApiData.english _ => none
  else some []

/-! ### Word provider proxy (`backend/index.js`) -/

/-- Server-side secrets loaded from the environment at startup. -/
structure ProxyConfig where
  ninjasApiKey : String
  spanishApiKey : String

/-- Outbound upstream request built by the proxy: the English provider is
called with an `X-Api-Key` header, the Spanish provider with an
`Authorization: Bearer` token. -/
inductive UpstreamRequest where
  | englishApi (xApiKey : String)
  | spanishApi (bearerToken : String)

deriving instance DecidableEq for UpstreamRequest

/-- `const lang = req.query.lang || "en"`: an absent parameter
(`undefined`) and the empty string are both falsy in JavaScript, so both
fall back to `"en"`. -/
def langOrDefault (queryLang : Option String) : String :=
  match queryLang with
  | none => "en"
  | some s => if s = "" then "en" else s

/-- Upstream selection of the `/api/word` handler: `lang === "en"` calls
the English provider with the Ninjas key; every other resolved value falls
through to the `else` branch, the Spanish provider with the Spanish bearer
token. -/
def buildUpstreamRequest (cfg : ProxyConfig) (lang : String) : UpstreamRequest :=
  if lang = "en" then UpstreamRequest.englishApi cfg.ninjasApiKey
  else UpstreamRequest.spanishApi cfg.spanishApiKey

/-- HTTP response sent back by the proxy: a status code together with
either a JSON body relayed from upstream or the generic error message. -/
structure ProxyResponse (α : Type) where
  status : Nat
  body : Except String α

/-- The `/api/word` handler: resolves the language, makes one upstream
call — the `upstream` argument gives the outcome of that single call,
`some` parsed JSON on success and `none` when the fetch or
`response.json()` throws — and either relays the body with status 200 or
answers status 500 with the generic error body. -/
def handleWordRequest {α : Type} (cfg : ProxyConfig) (queryLang : Option String)
    (upstream : UpstreamRequest → Option α) : ProxyResponse α :=
  match upstream (buildUpstreamRequest cfg (langOrDefault queryLang)) with
  | some data => { status := 200, body := Except.ok data }
  | none => { status := 500, body := Except.error "Error retrieving word from external API" }

/-! ### Helper lemmas -/

/-- Membership in the guessed list survives appending a new letter. -/
theorem contains_append_single (g : List Char) (x c : Char) (h : g.contains c = true) :
    (g ++ [x]).contains c = true :=
  List.elem_iff.mpr (List.mem_append_left _ (List.elem_iff.mp h))

/-- The win test is monotone under appending a guess. -/
theorem hasWon_append (w g : List Char) (x : Char) (h : hasWon w g = true) :
    hasWon w (g ++ [x]) = true := by
  rw [hasWon, List.all_eq_true] at h ⊢
  intro c hc
  exact contains_append_single g x c (h c hc)

/-- Invariant relating the sticky `winGame` flag to the recomputed win
test. -/
def sessionInvariant (s : GameState) : Prop :=
  s.winGame = hasWon s.currentWord s.guessedLetters

/-- A single guess event preserves the session invariant. -/
theorem guess_preserves_sessionInvariant (s : GameState) (letter : Char)
    (h : sessionInvariant s) : sessionInvariant (guess s letter) := by
  unfold sessionInvariant at h ⊢
  by_cases hg : gameOver s = true
  · simp [guess, hg, h]
  · by_cases hc : letter ∈ s.guessedLetters
    · simp [guess, hg, hc, h]
    · by_cases hw : hasWon s.currentWord (s.guessedLetters ++ [letter]) = true
      · simp [guess, checkGuessedLetter, winCheckEffect, hg, hc, hw]
      · have hval : hasWon s.currentWord s.guessedLetters = false := by
          cases hval : hasWon s.currentWord s.guessedLetters
          · rfl
          · exact absurd (hasWon_append _ _ letter hval) hw
        simp [guess, checkGuessedLetter, winCheckEffect, hg, hc, hw, hval, h]

/-- A sequence of guess events preserves the session invariant. -/
theorem playGuesses_sessionInvariant (letters : List Char) :
    ∀ s : GameState, sessionInvariant s → sessionInvariant (playGuesses s letters) := by
  induction letters with
  | nil => intro s h; exact h
  | cons l ls ih =>
      intro s h
      exact ih (guess s l) (guess_preserves_sessionInvariant s l h)

/-- A guess never changes the current word. -/
theorem guess_currentWord (s : GameState) (letter : Char) :
    (guess s letter).currentWord = s.currentWord := by
  unfold guess winCheckEffect checkGuessedLetter
  repeat' split
  all_goals rfl

/-- A sequence of guesses never changes the current word. -/
theorem playGuesses_currentWord (letters : List Char) :
    ∀ s : GameState, (playGuesses s letters).currentWord = s.currentWord := by
  induction letters with
  | nil => intro s; rfl
  | cons l ls ih =>
      intro s
      calc (playGuesses s (l :: ls)).currentWord
          = (playGuesses (guess s l) ls).currentWord := rfl
        _ = (guess s l).currentWord := ih (guess s l)
        _ = s.currentWord := guess_currentWord s l

/-! ### Claim theorems -/

/-- Claim C1, counterexample: with the empty target word set and no guess
made yet, the win flag is still `false` although every character of the
target word is (vacuously) a member of the guessed-letter set — the
win-check effect runs only when the guessed-letter list changes, never
when the word itself is stored — so the stated equivalence fails on this
reachable session state. -/
theorem winFlag_vacuous_empty_word :
    (playGuesses (initSession []) []).winGame = false ∧
    hasWon (playGuesses (initSession []) []).currentWord
      (playGuesses (initSession []) []).guessedLetters = true := by
  constructor <;> rfl

/-- Claim C1 (amended): for every nonempty target word and every sequence
of guess calls after the word is set, the win flag is true if and only if
every character of the target word is a member of the guessed-letter
set. -/
theorem winFlag_iff_all_guessed (word : List Char) (hw : word ≠ [])
    (letters : List Char) :
    (playGuesses (initSession word) letters).winGame = true ↔
      ∀ c ∈ word, c ∈ (playGuesses (initSession word) letters).guessedLetters := by
  have hinv : sessionInvariant (playGuesses (initSession word) letters) := by
    apply playGuesses_sessionInvariant
    unfold sessionInvariant initSession
    cases word with
    | nil => exact absurd rfl hw
    | cons c cs => simp [hasWon]
  have hword : (playGuesses (initSession word) letters).currentWord = word :=
    playGuesses_currentWord letters (initSession word)
  rw [sessionInvariant, hword] at hinv
  rw [hinv, hasWon, List.all_eq_true]
  constructor
  · intro hall c hc
    exact List.elem_iff.mp (hall c hc)
  · intro hall c hc
    exact List.elem_iff.mpr (hall c hc)

/-- Claim C1 (amended), witness at the word `cat` fully guessed. -/
theorem winFlag_iff_all_guessed_witness :
    (['c','a','t'] : List Char) ≠ [] ∧
    ((playGuesses (initSession ['c','a','t']) ['c','a','t']).winGame = true ↔
      ∀ c ∈ (['c','a','t'] : List Char),
        c ∈ (playGuesses (initSession ['c','a','t']) ['c','a','t']).guessedLetters) :=
  ⟨by decide, winFlag_iff_all_guessed ['c','a','t'] (by decide) ['c','a','t']⟩

/-- Claim C2: a guess is a no-op when the letter was already guessed or
the game is over; otherwise it appends the letter to the guessed set and
increments the wrong-attempt count exactly when the letter does not occur
in the target word; consequently the count never decreases and changes
only on a miss. -/
theorem guess_spec (s : GameState) (letter : Char) :
    (gameOver s = true ∨ letter ∈ s.guessedLetters → guess s letter = s) ∧
    (gameOver s = false → letter ∉ s.guessedLetters →
      (guess s letter).guessedLetters = s.guessedLetters ++ [letter] ∧
      (guess s letter).wrongAttemps =
        (if letter ∈ s.currentWord then s.wrongAttemps else s.wrongAttemps + 1)) ∧
    ((guess s letter).wrongAttemps = s.wrongAttemps ∨
      ((guess s letter).wrongAttemps = s.wrongAttemps + 1 ∧ letter ∉ s.currentWord)) := by
  refine ⟨?_, ?_, ?_⟩
  · rintro (hg | hc)
    · simp [guess, hg]
    · by_cases hg : gameOver s = true
      · simp [guess, hg]
      · simp [guess, hg, hc]
  · intro hg hc
    constructor
    · simp [guess, checkGuessedLetter, winCheckEffect, hg, hc]
      split <;> rfl
    · by_cases hm : letter ∈ s.currentWord
      · simp [guess, checkGuessedLetter, winCheckEffect, hg, hc, hm]
        split <;> rfl
      · simp [guess, checkGuessedLetter, winCheckEffect, hg, hc, hm]
        split <;> rfl
  · by_cases hg : gameOver s = true
    · left; simp [guess, hg]
    · by_cases hc : letter ∈ s.guessedLetters
      · left; simp [guess, hg, hc]
      · by_cases hm : letter ∈ s.currentWord
        · left
          simp [guess, checkGuessedLetter, winCheckEffect, hg, hc, hm]
          split <;> rfl
        · right
          refine ⟨?_, hm⟩
          simp [guess, checkGuessedLetter, winCheckEffect, hg, hc, hm]
          split <;> rfl

/-- Claim C2, witness: guessing the absent letter `x` against the word
`dog` from a fresh session appends the letter and counts one miss. -/
theorem guess_spec_witness :
    gameOver (initSession ['d','o','g']) = false ∧
    'x' ∉ (initSession ['d','o','g']).guessedLetters ∧
    (guess (initSession ['d','o','g']) 'x').guessedLetters =
      (initSession ['d','o','g']).guessedLetters ++ ['x'] ∧
    (guess (initSession ['d','o','g']) 'x').wrongAttemps =
      (if 'x' ∈ (initSession ['d','o','g']).currentWord
        then (initSession ['d','o','g']).wrongAttemps
        else (initSession ['d','o','g']).wrongAttemps + 1) :=
  ⟨by decide, by decide,
    ((guess_spec (initSession ['d','o','g']) 'x').2.1 (by decide) (by decide)).1,
    ((guess_spec (initSession ['d','o','g']) 'x').2.1 (by decide) (by decide)).2⟩

/-- Claim C3: the derived game-over flag holds exactly when the win flag
is set or the wrong-attempt count exceeds 7; with the win flag clear the
game stays open through the seventh miss and is over from the eighth miss
on. -/
theorem gameOver_iff (s : GameState) :
    (gameOver s = true ↔ s.winGame = true ∨ s.wrongAttemps > 7) ∧
    (s.winGame = false → (gameOver s = false ↔ s.wrongAttemps ≤ 7)) := by
  constructor
  · simp [gameOver]
  · intro h
    simp [gameOver, h]

/-- Example session: seven misses against `dog`, the win flag clear. -/
def sevenMissState : GameState :=
  { currentWord := ['d','o','g'], guessedLetters := ['x','y','z','q','j','v','w'],
    winGame := false, wrongAttemps := 7 }

/-- Example session: eight misses against `dog`, the game is lost. -/
def lostDogState : GameState :=
  { currentWord := ['d','o','g'], guessedLetters := ['x','y','z','q','j','v','w','k'],
    winGame := false, wrongAttemps := 8 }

/-- Claim C3, witness: with the win flag clear, seven wrong attempts leave
the game open. -/
theorem gameOver_iff_witness :
    sevenMissState.winGame = false ∧
    (gameOver sevenMissState = false ↔ sevenMissState.wrongAttemps ≤ 7) :=
  ⟨rfl, (gameOver_iff sevenMissState).2 rfl⟩

/-- Claim C4: once the game-over flag holds, a guess — and hence any
sequence of further guesses — leaves every component of the session state
unchanged. -/
theorem gameOver_guess_noop (s : GameState) (h : gameOver s = true) :
    (∀ letter : Char, guess s letter = s) ∧
    (∀ letters : List Char, playGuesses s letters = s) := by
  constructor
  · intro l
    simp [guess, h]
  · intro ls
    induction ls with
    | nil => rfl
    | cons l ls ih =>
        have hg : guess s l = s := by simp [guess, h]
        calc playGuesses s (l :: ls) = playGuesses (guess s l) ls := rfl
          _ = playGuesses s ls := by rw [hg]
          _ = s := ih

/-- Claim C4, witness: a lost session (eight misses on `dog`) absorbs a
further guess. -/
theorem gameOver_guess_noop_witness :
    gameOver lostDogState = true ∧ guess lostDogState 'a' = lostDogState :=
  ⟨by decide, (gameOver_guess_noop lostDogState (by decide)).1 'a'⟩

/-- Claim C5, counterexample: in the initial session state, before the
word fetch has completed, the keyboard buttons are not disabled and a
guess event does change the session state — contrary to the claim that
every guess input is disabled until the word is loaded. -/
theorem keyboard_enabled_before_word_loaded :
    keyboardButtonDisabled initialState = false ∧
    guess initialState 'a' ≠ initialState := by
  decide

/-- Claim C5 (amended): while the target word is not yet populated no
letter boxes are rendered, but guessing is not disabled — a keyboard
button is disabled exactly when the game is over, which does not hold in
the initial state — and a guess event before the word arrives does alter
the session state, recording the letter and counting a miss. -/
theorem loading_state_guessable :
    displayedWord initialState = none ∧
    (∀ s : GameState, keyboardButtonDisabled s = gameOver s) ∧
    keyboardButtonDisabled initialState = false ∧
    guess initialState 'a' =
      { currentWord := [' '], guessedLetters := ['a'], winGame := false,
        wrongAttemps := 1 } :=
  ⟨by decide, fun _ => rfl, by decide, by decide⟩

/-- Claim C6: after a reset the wrong-attempt count is 0, the guessed set
is empty, the win flag is false, the target word is the freshly fetched
word — and consequently the new session is not game-over. -/
theorem resetGame_spec (s : GameState) (freshWord : List Char) :
    (resetGame s freshWord).wrongAttemps = 0 ∧
    (resetGame s freshWord).guessedLetters = [] ∧
    (resetGame s freshWord).winGame = false ∧
    (resetGame s freshWord).currentWord = freshWord ∧
    gameOver (resetGame s freshWord) = false :=
  ⟨rfl, rfl, rfl, rfl, rfl⟩

/-- Claim C7: English extraction returns the first element of the `word`
array lowercased; Spanish extraction returns the `Palabra` field of the
element drawn at the random index, lowercased and stripped of diacritical
marks; in particular a Spanish response holding only `ÁRBOL` yields
exactly `arbol`. -/
theorem getNewWord_extraction (first : List Char) (rest : List (List Char))
    (results : List (List Char)) (i : Nat) (palabra : List Char) :
    getNewWord "en" (ApiData.english (first :: rest)) i = some (toLowerWord first) ∧
    (results.get? i = some palabra →
      getNewWord "es" (ApiData.spanish results) i =
        some (stripCombiningMarks (nfdString (toLowerWord palabra)))) ∧
    getNewWord "es" (ApiData.spanish [['Á','R','B','O','L']]) 0 =
      some ['a','r','b','o','l'] := by
  refine ⟨rfl, ?_, by decide⟩
  intro h
  have hbranch : getNewWord "es" (ApiData.spanish results) i =
      (results.get? i).map normalizeSpanishWord := rfl
  rw [hbranch, h]
  rfl

/-- Claim C7, witness: the Spanish response holding only `ÁRBOL`, drawn at
index 0, goes through the lowercase/NFD/strip pipeline. -/
theorem getNewWord_extraction_witness :
    ([['Á','R','B','O','L']] : List (List Char)).get? 0 = some ['Á','R','B','O','L'] ∧
    getNewWord "es" (ApiData.spanish [['Á','R','B','O','L']]) 0 =
      some (stripCombiningMarks (nfdString (toLowerWord ['Á','R','B','O','L']))) :=
  ⟨by decide,
    (getNewWord_extraction [] [] [['Á','R','B','O','L']] 0 ['Á','R','B','O','L']).2.1
      (by decide)⟩

/-- Claim C8: a request with the `lang` parameter omitted behaves exactly
like a request with `lang=en`: same resolved language, same upstream
request with the same credential, and the same response for every upstream
outcome. -/
theorem lang_omitted_eq_en {α : Type} (cfg : ProxyConfig)
    (upstream : UpstreamRequest → Option α) :
    langOrDefault none = langOrDefault (some "en") ∧
    buildUpstreamRequest cfg (langOrDefault none) =
      buildUpstreamRequest cfg (langOrDefault (some "en")) ∧
    handleWordRequest cfg none upstream = handleWordRequest cfg (some "en") upstream :=
  ⟨rfl, rfl, rfl⟩

/-- Claim C9: for every request the proxy makes one upstream call and
either relays the parsed upstream body with status 200, or — when the
fetch or the JSON parse of the body throws — answers status 500 with the
generic error body; there is no retry and no partial result. -/
theorem proxy_response_dichotomy {α : Type} (cfg : ProxyConfig)
    (queryLang : Option String) (upstream : UpstreamRequest → Option α) :
    (∃ data, upstream (buildUpstreamRequest cfg (langOrDefault queryLang)) = some data ∧
        handleWordRequest cfg queryLang upstream =
          { status := 200, body := Except.ok data }) ∨
    (upstream (buildUpstreamRequest cfg (langOrDefault queryLang)) = none ∧
        handleWordRequest cfg queryLang upstream =
          { status := 500,
            body := Except.error "Error retrieving word from external API" }) := by
  cases h : upstream (buildUpstreamRequest cfg (langOrDefault queryLang)) with
  | some d => exact Or.inl ⟨d, rfl, by simp [handleWordRequest, h]⟩
  | none => exact Or.inr ⟨rfl, by simp [handleWordRequest, h]⟩

/-- Claim C10, counterexample: the empty string is a value of the `lang`
parameter other than `en`, yet it is falsy in JavaScript, so it falls back
to the default and routes to the English provider, not the Spanish one. -/
theorem empty_lang_routes_english :
    ¬ ∀ (cfg : ProxyConfig) (q : String), q ≠ "en" →
        buildUpstreamRequest cfg (langOrDefault (some q)) =
          UpstreamRequest.spanishApi cfg.spanishApiKey := by
  intro h
  have h2 := h { ninjasApiKey := "nk", spanishApiKey := "sk" } "" (by decide)
  exact absurd h2 (by decide)

/-- Claim C10 (amended): every nonempty `lang` value other than `en` (for
example `fr`) routes to the Spanish provider with the Spanish bearer
token; the absent parameter and the empty string (both falsy) default to
the English provider with the English key. -/
theorem nonEn_routes_spanish (cfg : ProxyConfig) (q : String)
    (hne : q ≠ "en") (hnempty : q ≠ "") :
    buildUpstreamRequest cfg (langOrDefault (some q)) =
      UpstreamRequest.spanishApi cfg.spanishApiKey ∧
    buildUpstreamRequest cfg (langOrDefault none) =
      UpstreamRequest.englishApi cfg.ninjasApiKey ∧
    buildUpstreamRequest cfg (langOrDefault (some "")) =
      UpstreamRequest.englishApi cfg.ninjasApiKey := by
  refine ⟨?_, rfl, rfl⟩
  simp [langOrDefault, buildUpstreamRequest, hne, hnempty]

/-- Claim C10 (amended), witness: `fr` is neither `en` nor empty and is
routed to the Spanish provider with the Spanish bearer token. -/
theorem nonEn_routes_spanish_witness :
    ("fr" : String) ≠ "en" ∧ ("fr" : String) ≠ "" ∧
    buildUpstreamRequest { ninjasApiKey := "nk", spanishApiKey := "sk" }
        (langOrDefault (some "fr")) =
      UpstreamRequest.spanishApi "sk" :=
  ⟨by decide, by decide,
    (nonEn_routes_spanish { ninjasApiKey := "nk", spanishApiKey := "sk" } "fr"
      (by decide) (by decide)).1⟩

end AssemblyEndgame
